import Mathlib

/-!
Shallow embedding of the clipboardguard repository (Python) in Lean 4,
covering the pattern detector (detector.py together with the pattern table
of config.py), the trust database (trust_db.py), the trust-decision chain
and monitoring tick of the main monitor (monitor.py), the superseded
monitor variant (monitor.back.py), and the process attributor
(attributor.py).

Text is modelled as `List Char` (Python `str`).  Clipboard, trust-store,
user-intent, dialog, notifier and process-inspection collaborators are
modelled as explicit oracle inputs; a collaborator call that may raise in
Python is given an explicit success flag or an `Except Unit` value, since
the Python code wraps each such call in try/except.
-/

namespace ClipboardGuard

/-! ### Generic string helpers (Python `str` operations used by the code) -/

/-- Python substring test `needle in hay`. -/
def strContains (hay needle : List Char) : Bool :=
  (List.range (hay.length + 1)).any fun i =>
    (hay.drop i).take needle.length == needle

/-- Python `str.lower()` (ASCII range, which covers every string compared
by this program). -/
def lowerStr (s : List Char) : List Char :=
  s.map Char.toLower

/-- `os.path.basename`: the part of the path after the last separator
(the program targets Windows, where both slash variants separate). -/
def basename (s : List Char) : List Char :=
  ((s.reverse).takeWhile (fun c => ¬ (c = '/' ∨ c = '\\'))).reverse

/-! ### Regex primitives

detector.py compiles the patterns of config.PATTERNS with `regex` and
enumerates matches with `finditer`.  Each concrete pattern is embedded as
a match-at-position function giving the length the backtracking engine
matches starting exactly there, and `finditer` as the standard
left-to-right non-overlapping scan. -/

/-- A word character for `\b` (`[A-Za-z0-9_]`; every string involved is
ASCII). -/
def isWordChar (c : Char) : Bool :=
  c.isAlphanum || c = '_'

/-- Whether position `p` of `s` (0 ≤ p ≤ length) is a `\b` word boundary:
exactly one of the characters around it is a word character, positions
outside the string counting as non-word. -/
def wordBoundary (s : List Char) (p : Nat) : Bool :=
  let prevW := if h : 0 < p ∧ p - 1 < s.length then isWordChar (s.get ⟨p - 1, h.2⟩) else false
  let curW := if h : p < s.length then isWordChar (s.get ⟨p, h⟩) else false
  prevW != curW

/-- Length of the maximal run of characters satisfying `P` starting at
position `p`. -/
def runLen (P : Char → Bool) (s : List Char) (p : Nat) : Nat :=
  ((s.drop p).takeWhile P).length

/-- Character at a position, `none` past the end. -/
def charAt (s : List Char) (p : Nat) : Option Char :=
  s[p]?

/-- Hex digit, class `[a-fA-F0-9]`. -/
def isHexChar (c : Char) : Bool :=
  c.isDigit || ('a' ≤ c ∧ c ≤ 'f') || ('A' ≤ c ∧ c ≤ 'F')

/-- Class `[a-km-zA-HJ-NP-Z1-9]` of the BTC-like pattern. -/
def isB58Char (c : Char) : Bool :=
  (('a' ≤ c ∧ c ≤ 'k') || ('m' ≤ c ∧ c ≤ 'z')
    || ('A' ≤ c ∧ c ≤ 'H') || ('J' ≤ c ∧ c ≤ 'N') || ('P' ≤ c ∧ c ≤ 'Z')
    || ('1' ≤ c ∧ c ≤ '9'))

/-- Class `[A-Za-z0-9._%+-]` (email local part). -/
def isLocalChar (c : Char) : Bool :=
  c.isAlphanum || c = '.' || c = '_' || c = '%' || c = '+' || c = '-'

/-- Class `[A-Za-z0-9.-]` (email domain). -/
def isDomChar (c : Char) : Bool :=
  c.isAlphanum || c = '.' || c = '-'

/-- Class `[A-Za-z]`. -/
def isAlphaChar (c : Char) : Bool :=
  c.isAlpha

/-- Class `[A-Za-z0-9-_]` (JWT segments). -/
def isJwtChar (c : Char) : Bool :=
  c.isAlphanum || c = '-' || c = '_'

/-- Match of `\b(0x[a-fA-F0-9]{40})\b` at position `p`: boundary, literal
`0x`, exactly forty hex digits, boundary. -/
def ethMatchAt (s : List Char) (p : Nat) : Option Nat :=
  if wordBoundary s p ∧ charAt s p = some '0' ∧ charAt s (p + 1) = some 'x'
      ∧ (let seg := (s.drop (p + 2)).take 40
         seg.length = 40 ∧ seg.all isHexChar)
      ∧ wordBoundary s (p + 42) then
    some 42
  else none

/-- Match of `\b([13][a-km-zA-HJ-NP-Z1-9]{25,34})\b` at position `p`.
The counted repetition is greedy, backtracking from the longest available
run (capped at 34) down to 25 until the trailing boundary holds. -/
def btcMatchAt (s : List Char) (p : Nat) : Option Nat :=
  if wordBoundary s p ∧ (charAt s p = some '1' ∨ charAt s p = some '3') then
    let r := min (runLen isB58Char s (p + 1)) 34
    ((List.range (r + 1)).reverse.filter (fun len => 25 ≤ len)).findSome?
      fun len => if wordBoundary s (p + 1 + len) then some (1 + len) else none
  else none

/-- Match of `\b[A-Za-z0-9._%+-]+@[A-Za-z0-9.-]+\.[A-Za-z]{2,}\b` at `p`.
The local part must be the maximal run (a shorter prefix is followed by a
class character, never `@`); the domain run backtracks greedily over the
split before `\.`, and the final letter run backtracks greedily over its
length until the trailing boundary holds. -/
def emailMatchAt (s : List Char) (p : Nat) : Option Nat :=
  if wordBoundary s p then
    let l := runLen isLocalChar s p
    if l = 0 then none
    else if charAt s (p + l) = some '@' then
      let dstart := p + l + 1
      let d := runLen isDomChar s dstart
      ((List.range (d + 1)).reverse.filter (fun j => 1 ≤ j)).findSome? fun j =>
        if charAt s (dstart + j) = some '.' then
          let m := runLen isAlphaChar s (dstart + j + 1)
          ((List.range (m + 1)).reverse.filter (fun k => 2 ≤ k)).findSome? fun k =>
            if wordBoundary s (dstart + j + 1 + k) then
              some (dstart + j + 1 + k - p)
            else none
        else none
    else none
  else none

/-- Match of `\b[A-Za-z0-9-_]+\.[A-Za-z0-9-_]+\.[A-Za-z0-9-_]+\b` at `p`.
The first two segments must be maximal runs (the class omits `.`), and
the third backtracks greedily until the trailing boundary holds. -/
def jwtMatchAt (s : List Char) (p : Nat) : Option Nat :=
  if wordBoundary s p then
    let a := runLen isJwtChar s p
    if a = 0 then none
    else if charAt s (p + a) = some '.' then
      let b := runLen isJwtChar s (p + a + 1)
      if b = 0 then none
      else if charAt s (p + a + 1 + b) = some '.' then
        let cstart := p + a + 1 + b + 1
        let c := runLen isJwtChar s cstart
        ((List.range (c + 1)).reverse.filter (fun k => 1 ≤ k)).findSome? fun k =>
          if wordBoundary s (cstart + k) then some (cstart + k - p) else none
      else none
    else none
  else none

/-- One step of `finditer`: scan positions left to right, emit the match
found at a position as `(start, length)` and resume after it, else advance
one position.  `fuel` bounds the recursion; the scan position strictly
increases each step. -/
def finditerAux (matchAt : List Char → Nat → Option Nat) (s : List Char) :
    Nat → Nat → List (Nat × Nat)
  | _, 0 => []
  | p, fuel + 1 =>
    if p < s.length then
      match matchAt s p with
      | some len => (p, len) :: finditerAux matchAt s (p + max len 1) fuel
      | none => finditerAux matchAt s (p + 1) fuel
    else []

/-- `regex.finditer`: all non-overlapping matches of one pattern, leftmost
first. -/
def finditer (matchAt : List Char → Nat → Option Nat) (s : List Char) :
    List (Nat × Nat) :=
  finditerAux matchAt s 0 (s.length + 1)

/-! ### detector.py -/

/-- A match with its span: pattern type, start position, length.  The
Python code only keeps `(pattern_type, m.group(0))`; the span is what
`finditer` iterates over and is kept here to state overlap properties. -/
structure SpanMatch where
  ptype : String
  start : Nat
  len : Nat
deriving DecidableEq, Repr

/-- The matches of `find_sensitive_matches` with spans, in the program's
iteration order over config.PATTERNS: the two crypto_address rules, then
email, then jwt.  Empty text short-circuits to the empty list (`if not
text`). -/
def findSensitiveSpans (s : List Char) : List SpanMatch :=
  if s = [] then []
  else
    ((finditer ethMatchAt s).map fun q => ⟨"crypto_address", q.1, q.2⟩)
      ++ ((finditer btcMatchAt s).map fun q => ⟨"crypto_address", q.1, q.2⟩)
      ++ ((finditer emailMatchAt s).map fun q => ⟨"email", q.1, q.2⟩)
      ++ ((finditer jwtMatchAt s).map fun q => ⟨"jwt", q.1, q.2⟩)

/-- `find_sensitive_matches(text)`: list of `(pattern_type, matched_text)`
pairs. -/
def findSensitiveMatches (s : List Char) : List (String × List Char) :=
  (findSensitiveSpans s).map fun m => (m.ptype, (s.drop m.start).take m.len)

/-- Python set equality of the matched-text components of two match
lists (`set(t for _, t in prev) != set(...)` in `is_suspicious_change`). -/
def sameMatchSet (pm nm : List (String × List Char)) : Bool :=
  (pm.map Prod.snd).all (fun t => t ∈ nm.map Prod.snd)
    && (nm.map Prod.snd).all (fun t => t ∈ pm.map Prod.snd)

/-- `is_suspicious_change(prev_text, new_text)`. -/
def isSuspiciousChange (prevText newText : List Char) :
    Bool × List (String × List Char) :=
  let pm := findSensitiveMatches prevText
  let nm := findSensitiveMatches newText
  if nm = [] then (false, [])
  else if pm ≠ [] ∧ ¬ sameMatchSet pm nm then (true, nm)
  else if pm = [] then (true, nm)
  else (false, nm)

/-! ### trust_db.py

The trust database stores sha256 hexdigests of approved clipboard values.
The digest function itself is an external primitive and is modelled as an
oracle field `hash`; theorems that need collision-freeness assume it is
injective.  The persisted file is modelled as raw text: `save_trusted`
writes `json.dump (with indent 2) of a dict with the single key "hashes"`
in place, and `load_trusted` parses it back, any failure yielding the
empty set. -/

abbrev Hash := String

/-- The exact text `json.dump` with `indent=2` produces for the items of
the stored list: four spaces, quoted hash, then either a comma-newline
and the next item or the closing of the list and the object. -/
def encodeItems : List Hash → List Char
  | [] => "\n  ]\n\x7d".data
  | h :: t =>
    "    \"".data ++ h.data ++ "\"".data
      ++ (if t = [] then "\n  ]\n\x7d".data else ",\n".data ++ encodeItems t)

/-- The full file text written by `save_trusted(hashes)`. -/
def encodeTrustFile (l : List Hash) : List Char :=
  "\x7b\n  \"hashes\": [".data
    ++ (if l = [] then "]\n\x7d".data else "\n".data ++ encodeItems l)

/-- Consume an exact expected text from the front, or fail. -/
def dropExact (pre s : List Char) : Option (List Char) :=
  if s.take pre.length = pre then some (s.drop pre.length) else none

/-- The scan for the closing quote of one stored hash. -/
def notQuote (c : Char) : Bool :=
  ¬ (c = '"')

/-- Parse the item list written by `encodeItems`; `fuel` bounds the
recursion (each item consumes at least one character). -/
def parseItems : Nat → List Char → Option (List Hash)
  | 0, _ => none
  | fuel + 1, s =>
    match dropExact "    \"".data s with
    | none => none
    | some s1 =>
      let h := s1.takeWhile notQuote
      match s1.drop h.length with
      | '"' :: s2 =>
        if s2 = "\n  ]\n\x7d".data then some [String.mk h]
        else
          match dropExact ",\n".data s2 with
          | some s3 =>
            match parseItems fuel s3 with
            | some t => some (String.mk h :: t)
            | none => none
          | none => none
      | _ => none

/-- Parse a trust file: the inverse of `encodeTrustFile` on well-formed
text, `none` on anything else (`json.load` raising). -/
def decodeTrustFile (s : List Char) : Option (List Hash) :=
  match dropExact "\x7b\n  \"hashes\": [".data s with
  | none => none
  | some r =>
    if r = "]\n\x7d".data then some []
    else
      match dropExact "\n".data r with
      | none => none
      | some r2 => parseItems (r2.length + 1) r2

/-- `load_trusted()`: a missing file or a file that fails to parse yields
the empty set. -/
def loadTrusted (file : Option (List Char)) : List Hash :=
  match file with
  | none => []
  | some s => (decodeTrustFile s).getD []

/-- `save_trusted(hashes)` writes the encoding in place (`open(.., 'w')`
truncates, then the text is written).  The observable file contents while
a save runs: the previous content, then the truncated file, then every
prefix of the new text, ending with the complete new text. -/
def saveTrustedStates (old : List Char) (l : List Hash) : List (List Char) :=
  old :: (List.range ((encodeTrustFile l).length + 1)).map
    fun i => (encodeTrustFile l).take i

/-- `add_trusted` on the in-memory cached set: insert the digest if it is
not yet present. -/
def addTrustedCache (hash : List Char → Hash) (cache : List Hash)
    (v : List Char) : List Hash :=
  if hash v ∈ cache then cache else hash v :: cache

/-- `is_trusted(value)` against the cached set. -/
def isTrustedCache (hash : List Char → Hash) (cache : List Hash)
    (v : List Char) : Bool :=
  hash v ∈ cache

/-! ### attributor.py -/

/-- One process entry of a `snapshot_processes()` result: name, exe path,
cumulative `write_bytes` and cumulative cpu time (user+system). -/
structure ProcMetric where
  name : String
  exe : String
  writeBytes : Int
  cpuTime : ℚ
deriving DecidableEq, Repr

/-- A snapshot: association of pid to metrics (a Python dict; keys are
unique in any real snapshot, and `lookup` takes the first binding). -/
abbrev Snapshot := List (Nat × ProcMetric)

/-- A ranked candidate produced by `compute_deltas`. -/
structure Suspect where
  pid : Nat
  name : String
  exe : String
  deltaWrite : Int
  deltaCpu : ℚ
deriving DecidableEq, Repr

/-- `set(before) | set(after)` — the union of pids of the two
snapshots. -/
def unionPids (before after : Snapshot) : List Nat :=
  (before.map Prod.fst ++ after.map Prod.fst).dedup

/-- Python `x or y` on strings: `y` when `x` is empty. -/
def firstNonEmpty (x y : String) : String :=
  if x = "" then y else x

/-- The candidate `compute_deltas` builds for one pid: metrics default to
0 on a side the pid is missing from, deltas are clamped at 0, and
name/exe are taken from `after` falling back to `before`. -/
def mkCandidate (before after : Snapshot) (pid : Nat) : Suspect :=
  let b := before.lookup pid
  let a := after.lookup pid
  { pid := pid
    name := firstNonEmpty ((a.map ProcMetric.name).getD "")
      ((b.map ProcMetric.name).getD "")
    exe := firstNonEmpty ((a.map ProcMetric.exe).getD "")
      ((b.map ProcMetric.exe).getD "")
    deltaWrite := max 0 (((a.map ProcMetric.writeBytes).getD 0)
      - ((b.map ProcMetric.writeBytes).getD 0))
    deltaCpu := max 0 (((a.map ProcMetric.cpuTime).getD 0)
      - ((b.map ProcMetric.cpuTime).getD 0)) }

/-- Descending order on the sort key `(delta_write, delta_cpu)` used by
`candidates.sort(..., reverse=True)`: `x` may come before `y`. -/
def suspectGe (x y : Suspect) : Prop :=
  y.deltaWrite < x.deltaWrite
    ∨ (x.deltaWrite = y.deltaWrite ∧ y.deltaCpu ≤ x.deltaCpu)

instance : DecidableRel suspectGe := fun x y => by
  unfold suspectGe; exact inferInstance

instance : IsTotal Suspect suspectGe where
  total x y := by
    unfold suspectGe
    rcases lt_trichotomy x.deltaWrite y.deltaWrite with h | h | h
    · rcases le_total x.deltaCpu y.deltaCpu with h2 | h2
      · exact Or.inr (Or.inl h)
      · exact Or.inr (Or.inl h)
    · rcases le_total x.deltaCpu y.deltaCpu with h2 | h2
      · exact Or.inr (Or.inr ⟨h.symm, h2⟩)
      · exact Or.inl (Or.inr ⟨h, h2⟩)
    · exact Or.inl (Or.inl h)

instance : IsTrans Suspect suspectGe where
  trans x y z hxy hyz := by
    unfold suspectGe at *
    rcases hxy with h1 | ⟨e1, c1⟩
    · rcases hyz with h2 | ⟨e2, c2⟩
      · exact Or.inl (h2.trans h1)
      · exact Or.inl (e2 ▸ h1)
    · rcases hyz with h2 | ⟨e2, c2⟩
      · exact Or.inl (e1 ▸ h2)
      · exact Or.inr ⟨e1.trans e2, c2.trans c1⟩

/-- `compute_deltas(before, after)`: one candidate for every pid in the
union, sorted with Python's stable sort by descending
`(delta_write, delta_cpu)`. -/
def computeDeltas (before after : Snapshot) : List Suspect :=
  List.insertionSort suspectGe ((unionPids before after).map (mkCandidate before after))

/-- `identify_suspects(window_seconds, top_k)`: the two snapshots taken
around the sleep window are inputs here; the result is the first `top_k`
candidates. -/
def identifySuspects (before after : Snapshot) (topK : Nat) : List Suspect :=
  (computeDeltas before after).take topK

/-- `format_suspect(s)` (numeric rendering via `toString`). -/
def formatSuspect (s : Suspect) : String :=
  "pid=" ++ toString s.pid ++ " name=" ++ s.name ++ " exe=" ++ s.exe
    ++ " write_delta=" ++ toString s.deltaWrite
    ++ " cpu_delta=" ++ toString s.deltaCpu

/-! ### monitor.py — the trust-decision chain `_should_accept_new`

Collaborators are oracles: `isTrustedOk` is whether the `is_trusted` call
returns normally, `userCopy` is the outcome of `was_recent_user_copy()`
(`Except.error` when it raises), `addOk` whether `add_trusted` returns
normally, `dialog` the outcome of `ask_user_trust_prompt` (which itself
returns False when its GUI fails, and `Except.error` covers the outer
try/except).  Each Python try/except corresponds to a branch here, so the
embedded function is total: the engine never propagates an exception. -/

structure TrustCtx where
  hash : List Char → Hash
  cache : List Hash
  pretrusted : List (List Char)
  isTrustedOk : Bool
  userCopy : Except Unit Bool
  addOk : Bool
  dialog : Except Unit Bool

/-- `add_trusted(new_text)` under the monitor's try/except: the cached set
gains the digest unless the call raises. -/
def tryAddTrusted (ctx : TrustCtx) (v : List Char) : List Hash :=
  if ctx.addOk then addTrustedCache ctx.hash ctx.cache v else ctx.cache

/-- Rule 4 of `_should_accept_new`: the interactive dialog.  A yes adds
the digest and accepts; a no, a dialog failure, or a raise falls through
to the final `return False`. -/
def rule4 (ctx : TrustCtx) (v : List Char) : Bool × List Hash :=
  match ctx.dialog with
  | .ok true => (true, tryAddTrusted ctx v)
  | _ => (false, ctx.cache)

/-- Rules 3–4: recent user copy accepts and adds; a false or raising
signal proceeds to rule 4. -/
def rule3to4 (ctx : TrustCtx) (v : List Char) : Bool × List Hash :=
  match ctx.userCopy with
  | .ok true => (true, tryAddTrusted ctx v)
  | _ => rule4 ctx v

/-- Rules 2–4: exact membership in the pre-trusted config list accepts
without mutation; otherwise proceed. -/
def rule2to4 (ctx : TrustCtx) (v : List Char) : Bool × List Hash :=
  if v ∈ ctx.pretrusted then (true, ctx.cache) else rule3to4 ctx v

/-- `_should_accept_new(new_text, ...)`: the full chain.  Rule 1 accepts
when `is_trusted` returns normally and the digest is in the store; a
raise or a miss proceeds to rule 2. -/
def shouldAcceptNew (ctx : TrustCtx) (v : List Char) : Bool × List Hash :=
  if ctx.isTrustedOk ∧ ctx.hash v ∈ ctx.cache then (true, ctx.cache)
  else rule2to4 ctx v

/-! Spec-side chain (section 4.2 of the specification): an ordered list of
rules, each either accepting with a resulting store or abstaining,
short-circuiting on the first acceptance. -/

/-- A spec-side trust rule: `some store` accepts, `none` abstains. -/
def TrustRule := TrustCtx → List Char → Option (List Hash)

/-- Evaluate an ordered rule chain, short-circuiting on first
acceptance; an exhausted chain rejects without mutation. -/
def chainEval : List TrustRule → TrustCtx → List Char → Bool × List Hash
  | [], ctx, _ => (false, ctx.cache)
  | r :: rs, ctx, v =>
    match r ctx v with
    | some c => (true, c)
    | none => chainEval rs ctx v

/-- Spec rule 1: digest already in the TrustStore — accept, no
mutation. -/
def specRule1 : TrustRule := fun ctx v =>
  if ctx.isTrustedOk ∧ ctx.hash v ∈ ctx.cache then some ctx.cache else none

/-- Spec rule 2: exact pre-trusted entry — accept, no mutation. -/
def specRule2 : TrustRule := fun ctx v =>
  if v ∈ ctx.pretrusted then some ctx.cache else none

/-- Spec rule 3: user-initiated copy gesture within the trailing window —
accept and add the digest. -/
def specRule3 : TrustRule := fun ctx v =>
  match ctx.userCopy with
  | .ok true => some (addTrustedCache ctx.hash ctx.cache v)
  | _ => none

/-- Spec rule 4: synchronous interactive confirmation — accept and add on
yes, abstain otherwise (an exhausted chain then rejects). -/
def specRule4 : TrustRule := fun ctx v =>
  match ctx.dialog with
  | .ok true => some (addTrustedCache ctx.hash ctx.cache v)
  | _ => none

/-! ### monitor.py — configuration and the tick of the main loop -/

/-- config.WHITELIST_NAMES. -/
def WHITELIST_NAMES : List String :=
  ["explorer.exe", "System", "Idle", "svchost.exe"]

/-- config.AUTO_TERMINATE. -/
def AUTO_TERMINATE : Bool := false

/-- config.ATTRIBUTION_TOP_K. -/
def ATTRIBUTION_TOP_K : Nat := 3

/-- `_is_whitelisted(name, exe)`: case-insensitive substring match of a
whitelist entry in the process name, or exact match on the lowercased
executable basename. -/
def isWhitelisted (name exe : String) : Bool :=
  if name = "" ∧ exe = "" then false
  else
    WHITELIST_NAMES.any fun w =>
      strContains (lowerStr name.data) (lowerStr w.data)
        || lowerStr w.data == lowerStr (basename exe.data)

/-- Events emitted to the logger, with prev/new clipboard values and the
detected-types/metadata column. -/
inductive Event where
  | acceptedTrusted (prev new : List Char) (meta : List String)
  | suspiciousChange (prev new : List Char) (meta : List String)
  | restored (prev new : List Char) (meta : List String)
  | restoreFailed (prev new : List Char) (meta : List String)
  | terminated (prev new : List Char) (meta : List String)
  | terminateFailed (prev new : List Char) (meta : List String)
deriving DecidableEq, Repr

/-- The collaborator oracles of one tick: the clipboard content at tick
start, success flags for the initial paste, the restore copy and the
final re-read paste, the two process snapshots bracketing the attribution
window, the monitor's own pid, the `_attempt_terminate` outcome, and the
trust-chain oracles. -/
structure MonEnv where
  clip : List Char
  paste1Ok : Bool
  copyOk : Bool
  paste2Ok : Bool
  before : Snapshot
  after : Snapshot
  selfPid : Nat
  termOk : Bool
  termStatus : String
  trust : TrustCtx

/-- The observable outcome of one tick: the baseline `self._last` after
the tick, the clipboard content after the tick, the events logged in
order, the trust cache after the tick, and the filtered suspects list
passed to formatting, logging and notification (empty when the tick did
not handle a suspicious change). -/
structure TickResult where
  last : List Char
  clip : List Char
  events : List Event
  cache : List Hash
  filtered : List Suspect
deriving DecidableEq, Repr

/-- The self/whitelist filter the monitor applies to the attribution
result. -/
def filterSuspects (selfPid : Nat) (suspects : List Suspect) : List Suspect :=
  suspects.filter fun s => !(s.pid == selfPid) && !(isWhitelisted s.name s.exe)

/-- Shared suspicious-change handling of both monitor variants (the code
of the two blocks is identical): attribution, self/whitelist filter,
`suspicious_change` log entry, notification, restore attempt with its
`restored`/`restore_failed` entry, and the optional terminate step. -/
def handleSuspicious (env : MonEnv) (last current : List Char)
    (types : List String) : List Event × List Char × List Suspect :=
  let suspects := identifySuspects env.before env.after ATTRIBUTION_TOP_K
  let filtered := filterSuspects env.selfPid suspects
  let suspectInfo :=
    if filtered = [] then ["unknown_or_whitelisted"]
    else filtered.map formatSuspect
  let ev1 : Event := .suspiciousChange last current (types ++ suspectInfo)
  let clip1 := if env.copyOk then last else env.clip
  let ev2 : Event :=
    if env.copyOk then .restored last current (types ++ ["restored"])
    else .restoreFailed last current types
  let evs :=
    if AUTO_TERMINATE = true ∧ filtered ≠ [] then
      [ev1, ev2]
        ++ [if env.termOk then
              .terminated last current
                (["pid=" ++ toString ((filtered.head?.map Suspect.pid).getD 0),
                  env.termStatus])
            else
              .terminateFailed last current
                (["pid=" ++ toString ((filtered.head?.map Suspect.pid).getD 0),
                  env.termStatus])]
    else [ev1, ev2]
  (evs, clip1, filtered)

/-- One iteration of `ClipboardGuardCore.start` of monitor.py.  The
trust-decision path runs whenever the new text has sensitive matches; on
acceptance the baseline adopts the new value and the tick ends (the
`continue`).  Otherwise a suspicious change is handled, and in every
non-accepted branch the baseline is re-read from the clipboard at the end
of the tick (empty on a paste failure). -/
def tickMain (env : MonEnv) (last : List Char) : TickResult :=
  let current := if env.paste1Ok then env.clip else []
  if current = last then ⟨last, env.clip, [], env.trust.cache, []⟩
  else
    let sn := isSuspiciousChange last current
    let nm := sn.2
    if nm ≠ [] ∧ (shouldAcceptNew env.trust current).1 then
      ⟨current, env.clip, [.acceptedTrusted last current (nm.map Prod.fst)],
        (shouldAcceptNew env.trust current).2, []⟩
    else
      let cache1 :=
        if nm ≠ [] then (shouldAcceptNew env.trust current).2
        else env.trust.cache
      if sn.1 then
        let hs := handleSuspicious env last current (nm.map Prod.fst)
        let last1 := if env.paste2Ok then hs.2.1 else []
        ⟨last1, hs.2.1, hs.1, cache1, hs.2.2⟩
      else
        let last1 := if env.paste2Ok then env.clip else []
        ⟨last1, env.clip, [], cache1, []⟩

/-- One iteration of `ClipboardGuardCore.start` of monitor.back.py.  No
trust-decision path: every suspicious change is handled.  The final
re-read `self._last = pyperclip.paste()` has no try/except there, so a
paste failure propagates and kills the loop (`none`). -/
def tickBack (env : MonEnv) (last : List Char) : Option TickResult :=
  let current := if env.paste1Ok then env.clip else []
  if current = last then some ⟨last, env.clip, [], env.trust.cache, []⟩
  else
    let sn := isSuspiciousChange last current
    if sn.1 then
      let types := if sn.2 = [] then [] else sn.2.map Prod.fst
      let hs := handleSuspicious env last current types
      if env.paste2Ok then some ⟨hs.2.1, hs.2.1, hs.1, env.trust.cache, hs.2.2⟩
      else none
    else
      if env.paste2Ok then some ⟨env.clip, env.clip, [], env.trust.cache, []⟩
      else none

/-! ### Helper lemmas -/

/-- A rejecting run of the trust chain leaves the cached store
unchanged: every reject endpoint returns `ctx.cache`. -/
theorem shouldAcceptNew_reject_cache (ctx : TrustCtx) (v : List Char)
    (h : (shouldAcceptNew ctx v).1 = false) :
    (shouldAcceptNew ctx v).2 = ctx.cache := by
  unfold shouldAcceptNew rule2to4 rule3to4 rule4 at *
  split_ifs at h ⊢ <;>
    rcases hu : ctx.userCopy with _ | b <;> simp [hu] at h ⊢ <;>
      (try cases b) <;>
      rcases hd : ctx.dialog with _ | c <;> simp [hu, hd] at h ⊢ <;>
      (try cases c) <;> simp at h ⊢

/-- C2: `_should_accept_new(new_text, new_matches)` evaluates exactly the
ordered chain of section 4.2 — (1) digest in the TrustStore: accept, no
mutation; (2) exact pre-trusted entry: accept, no mutation; (3) recent
user copy gesture: accept and add the digest; (4) synchronous
confirmation: accept and add if affirmed, else reject — short-circuiting
on the first accepting rule.  Stated as equality with the spec-side chain
evaluator over the four spec rules, plus the short-circuit property that
once rule 1 accepts, the user-intent and dialog collaborators have no
effect on the result.  The hypothesis is that `add_trusted` returns
normally (rule mutation as the spec words it). -/
theorem C2_should_accept_is_ordered_chain (ctx : TrustCtx) (v : List Char)
    (hAdd : ctx.addOk = true) :
    shouldAcceptNew ctx v
        = chainEval [specRule1, specRule2, specRule3, specRule4] ctx v
      ∧ (∀ uc dg : Except Unit Bool,
          (ctx.isTrustedOk = true ∧ ctx.hash v ∈ ctx.cache) →
            shouldAcceptNew { ctx with userCopy := uc, dialog := dg } v
              = (true, ctx.cache)) := by
  constructor
  · by_cases h1 : (ctx.isTrustedOk = true ∧ ctx.hash v ∈ ctx.cache)
    · simp [shouldAcceptNew, chainEval, specRule1, h1]
    · by_cases h2 : v ∈ ctx.pretrusted
      · simp [shouldAcceptNew, chainEval, specRule1, specRule2, rule2to4,
          h1, h2]
      · rcases hu : ctx.userCopy with _ | b
        · rcases hd : ctx.dialog with _ | c
          · simp [shouldAcceptNew, chainEval, specRule1, specRule2, specRule3,
              specRule4, rule2to4, rule3to4, rule4, tryAddTrusted,
              h1, h2, hu, hd, hAdd]
          · cases c <;>
              simp [shouldAcceptNew, chainEval, specRule1, specRule2, specRule3,
                specRule4, rule2to4, rule3to4, rule4, tryAddTrusted,
                h1, h2, hu, hd, hAdd]
        · cases b <;> rcases hd : ctx.dialog with _ | c <;> (try cases c) <;>
            simp [shouldAcceptNew, chainEval, specRule1, specRule2, specRule3,
              specRule4, rule2to4, rule3to4, rule4, tryAddTrusted,
              h1, h2, hu, hd, hAdd]
  · intro uc dg h1
    unfold shouldAcceptNew
    simp [h1.1, h1.2]

/-- Witness for C2 at a concrete context: a value whose digest is already
cached is accepted without mutation, agreeing with the spec chain, and
the dialog/user-intent oracles cannot change that. -/
theorem C2_should_accept_is_ordered_chain_witness :
    shouldAcceptNew ⟨fun v => String.mk v, ["ab"], [], true, .ok false, true, .ok false⟩ "ab".data
        = chainEval [specRule1, specRule2, specRule3, specRule4]
            ⟨fun v => String.mk v, ["ab"], [], true, .ok false, true, .ok false⟩ "ab".data
      ∧ shouldAcceptNew ⟨fun v => String.mk v, ["ab"], [], true, .error (), true, .error ()⟩ "ab".data
          = (true, ["ab"]) := by
  refine ⟨(C2_should_accept_is_ordered_chain _ _ rfl).1, ?_⟩
  exact (C2_should_accept_is_ordered_chain
      ⟨fun v => String.mk v, ["ab"], [], true, .ok false, true, .ok false⟩ "ab".data rfl).2
    (.error ()) (.error ()) ⟨rfl, by decide⟩

/-- C7: the trust-decision engine is a total function (every collaborator
call sits under a try/except, so `_should_accept_new` never propagates an
exception — totality of `shouldAcceptNew` is the embedded form of that),
and each collaborator failure makes only that rule abstain: a raising
`is_trusted` skips to the rules-2-to-4 tail, a raising user-intent signal
behaves exactly like a signal that reports no gesture, a raising or
failing confirmation dialog behaves exactly like a declined confirmation,
and after every rule has failed a pre-trusted value is still accepted —
the chain proceeds instead of rejecting outright or crashing. -/
theorem C7_collaborator_failures_abstain (ctx : TrustCtx) (v : List Char)
    (u u2 : Unit) :
    shouldAcceptNew { ctx with isTrustedOk := false } v
        = rule2to4 { ctx with isTrustedOk := false } v
      ∧ shouldAcceptNew { ctx with userCopy := .error u } v
          = shouldAcceptNew { ctx with userCopy := .ok false } v
      ∧ shouldAcceptNew { ctx with dialog := .error u2 } v
          = shouldAcceptNew { ctx with dialog := .ok false } v
      ∧ (v ∈ ctx.pretrusted →
          shouldAcceptNew
              { ctx with
                  isTrustedOk := false
                  userCopy := Except.error u
                  dialog := Except.error u2 } v
            = (true, ctx.cache)) := by
  refine ⟨?_, ?_, ?_, ?_⟩
  · simp [shouldAcceptNew]
  · simp [shouldAcceptNew, rule2to4, rule3to4, rule4, tryAddTrusted,
      addTrustedCache]
  · rcases hu : ctx.userCopy with _ | b <;> (try cases b) <;>
      simp [shouldAcceptNew, rule2to4, rule3to4, rule4, tryAddTrusted,
        addTrustedCache, hu]
  · intro hv
    simp [shouldAcceptNew, rule2to4, hv]

/-- Witness for C7 at a concrete context in which every collaborator
fails: the engine still returns a value, and a pre-trusted entry is still
accepted through the chain. -/
theorem C7_collaborator_failures_abstain_witness :
    shouldAcceptNew
        ⟨fun v => String.mk v, ["zz"], ["ok".data], false, .error (), true,
          .error ()⟩ "ok".data
      = (true, ["zz"]) := by
  have h := (C7_collaborator_failures_abstain
    ⟨fun v => String.mk v, ["zz"], ["ok".data], true, .ok false, true,
      .ok false⟩ "ok".data () ()).2.2.2 (by decide)
  exact h

/-! ### Round-trip of the trust file -/

theorem dropExact_append (pre rest : List Char) :
    dropExact pre (pre ++ rest) = some rest := by
  simp [dropExact, List.take_left, List.drop_left]

theorem takeWhile_quote_append (h : List Char) (hq : ('"' : Char) ∉ h)
    (rest : List Char) :
    (h ++ '"' :: rest).takeWhile notQuote = h := by
  induction h with
  | nil =>
    rw [List.nil_append, List.takeWhile_cons]
    simp [notQuote]
  | cons c t ih =>
    have hc : c ≠ '"' := fun e => hq (e ▸ List.mem_cons_self c t)
    have ht : ('"' : Char) ∉ t := fun m => hq (List.mem_cons_of_mem c m)
    rw [List.cons_append, List.takeWhile_cons]
    have hpc : notQuote c = true := by simp [notQuote, hc]
    rw [hpc]
    simp only [if_true]
    rw [ih ht]

theorem drop_quote_append (h : List Char) (hq : ('"' : Char) ∉ h)
    (rest : List Char) :
    (h ++ '"' :: rest).drop
        ((h ++ '"' :: rest).takeWhile notQuote).length = '"' :: rest := by
  rw [takeWhile_quote_append h hq rest, List.drop_left]

theorem encodeItems_single (h : Hash) :
    encodeItems [h]
      = "    \"".data ++ (h.data ++ '"' :: "\n  ]\n\x7d".data) := by
  unfold encodeItems
  simp

theorem encodeItems_cons (h x : Hash) (xs : List Hash) :
    encodeItems (h :: x :: xs)
      = "    \"".data ++ (h.data ++ '"' :: (",\n".data ++ encodeItems (x :: xs))) := by
  rw [encodeItems]
  simp

theorem parseItems_encodeItems (l : List Hash) (hl : l ≠ [])
    (hq : ∀ h ∈ l, ('"' : Char) ∉ h.data) :
    ∀ fuel, (encodeItems l).length ≤ fuel →
      parseItems fuel (encodeItems l) = some l := by
  induction l with
  | nil => exact absurd rfl hl
  | cons h t ih =>
    intro fuel hfuel
    have hqh : ('"' : Char) ∉ h.data := hq h (List.mem_cons_self h t)
    obtain ⟨f, rfl⟩ : ∃ f, fuel = f + 1 := by
      cases fuel with
      | zero =>
        exfalso
        have hpos : 0 < (encodeItems (h :: t)).length := by
          unfold encodeItems
          split_ifs <;> simp
        omega
      | succ f => exact ⟨f, rfl⟩
    by_cases ht : t = []
    · subst ht
      rw [encodeItems_single]
      unfold parseItems
      rw [dropExact_append]
      simp only [takeWhile_quote_append h.data hqh, List.drop_left]
      simp
    · obtain ⟨x, xs, rfl⟩ : ∃ x xs, t = x :: xs := by
        cases t with
        | nil => exact absurd rfl ht
        | cons x xs => exact ⟨x, xs, rfl⟩
      rw [encodeItems_cons h x xs]
      unfold parseItems
      rw [dropExact_append]
      simp only [takeWhile_quote_append h.data hqh, List.drop_left]
      have hne : ¬ ((",\n".data ++ encodeItems (x :: xs)) = "\n  ]\n\x7d".data) := by
        intro e
        exact absurd (List.head_eq_of_cons_eq e) (by decide)
      simp only [if_neg hne, dropExact_append]
      have hfuel2 : (encodeItems (x :: xs)).length ≤ f := by
        have hlen : (encodeItems (h :: x :: xs)).length
            = 8 + h.data.length + (encodeItems (x :: xs)).length := by
          rw [encodeItems_cons h x xs]
          simp [List.length_append]
          omega
        omega
      rw [ih ht (fun y hy => hq y (List.mem_cons_of_mem h hy)) f hfuel2]

theorem decode_encodeTrustFile (l : List Hash)
    (hq : ∀ h ∈ l, ('"' : Char) ∉ h.data) :
    decodeTrustFile (encodeTrustFile l) = some l := by
  cases l with
  | nil =>
    unfold encodeTrustFile decodeTrustFile
    rw [if_pos rfl, dropExact_append]
    simp
  | cons h t =>
    unfold encodeTrustFile decodeTrustFile
    have hne : (h :: t : List Hash) ≠ [] := by simp
    rw [if_neg hne, dropExact_append]
    have hne2 : ¬ ("\n".data ++ encodeItems (h :: t) = "]\n\x7d".data) := by
      intro e
      exact absurd (List.head_eq_of_cons_eq e) (by decide)
    simp only [if_neg hne2, dropExact_append]
    exact parseItems_encodeItems (h :: t) hne hq _ (Nat.le_succ _)

/-- C8: after `add_trusted(V)`, `is_trusted(V)` holds; `is_trusted(V2)`
stays false for `V2 ≠ V` that was not previously trusted (assuming the
digest function is injective, the embedded form of sha256
collision-freeness); and a stored hash list written by `save_trusted` is
read back unchanged by `load_trusted` (hashes are hex digests, so they
contain no quote character — the hypothesis `hq`). -/
theorem C8_add_is_trusted_roundtrip (hash : List Char → Hash)
    (cache : List Hash) (v v2 : List Char)
    (hinj : Function.Injective hash) (hne : v2 ≠ v)
    (hnot : isTrustedCache hash cache v2 = false)
    (l : List Hash) (hq : ∀ h ∈ l, ('"' : Char) ∉ h.data) :
    isTrustedCache hash (addTrustedCache hash cache v) v = true
      ∧ isTrustedCache hash (addTrustedCache hash cache v) v2 = false
      ∧ loadTrusted (some (encodeTrustFile l)) = l := by
  refine ⟨?_, ?_, ?_⟩
  · unfold isTrustedCache addTrustedCache
    split_ifs with h
    · simpa using h
    · simp
  · have hh : hash v2 ≠ hash v := fun e => hne (hinj e)
    unfold isTrustedCache addTrustedCache at *
    split_ifs with h
    · exact hnot
    · simpa [hh] using hnot
  · simp [loadTrusted, decode_encodeTrustFile l hq]

/-- Witness for C8 with the identity digest (injective), an empty cache,
`V = "a"`, `V2 = "b"`, and the stored list `["aa"]`. -/
theorem C8_add_is_trusted_roundtrip_witness :
    isTrustedCache (fun v => String.mk v)
        (addTrustedCache (fun v => String.mk v) [] "a".data) "a".data = true
      ∧ isTrustedCache (fun v => String.mk v)
          (addTrustedCache (fun v => String.mk v) [] "a".data) "b".data = false
      ∧ loadTrusted (some (encodeTrustFile ["aa"])) = ["aa"] :=
  C8_add_is_trusted_roundtrip (fun v => String.mk v) [] "a".data "b".data
    (fun a b e => congrArg String.data e) (by decide) (by decide)
    ["aa"] (by decide)

/-- C5 counterexample: with the previous file content the encoding of the
set containing the single digest "aa" and a new set containing only "bb",
the truncated file (an observable state of the in-place
`open(..., 'w')` + `json.dump` save) is neither the complete old content
nor the complete new content — the claimed atomic-replace property fails
on the code's in-place write. -/
theorem C5_counterexample :
    ¬ (∀ s ∈ saveTrustedStates (encodeTrustFile ["aa"]) ["bb"],
        s = encodeTrustFile ["aa"] ∨ s = encodeTrustFile ["bb"]) := by
  intro h
  have hmem : ([] : List Char) ∈ saveTrustedStates (encodeTrustFile ["aa"]) ["bb"] := by
    decide
  rcases h [] hmem with e | e
  · exact absurd e (by decide)
  · exact absurd e (by decide)

/-- C5 amended: `save_trusted` writes the file in place, so the states a
reader can observe during a save are exactly the old content and the
prefixes of the new encoding (the truncated file among them) — not
old-or-new as atomic replace would give; a *completed* save leaves
exactly the encoding of the new set, which `load_trusted` reads back
unchanged. -/
theorem C5_amended_in_place_save (old : List Char) (l : List Hash)
    (hq : ∀ h ∈ l, ('"' : Char) ∉ h.data) :
    (saveTrustedStates old l).getLast? = some (encodeTrustFile l)
      ∧ loadTrusted (some (encodeTrustFile l)) = l
      ∧ ∀ s ∈ saveTrustedStates old l,
          s = old ∨ ∃ k, s = (encodeTrustFile l).take k := by
  refine ⟨?_, ?_, ?_⟩
  · unfold saveTrustedStates
    rw [List.range_succ, List.map_append]
    simp only [List.map_cons, List.map_nil]
    rw [← List.cons_append, List.getLast?_concat]
    simp
  · simp [loadTrusted, decode_encodeTrustFile l hq]
  · intro s hs
    unfold saveTrustedStates at hs
    rcases List.mem_cons.1 hs with e | hs2
    · exact Or.inl e
    · rcases List.mem_map.1 hs2 with ⟨i, _, e⟩
      exact Or.inr ⟨i, e.symm⟩

/-- Witness for C5's amended theorem at the concrete save of `["aa"]`
over the old content `"x"`. -/
theorem C5_amended_in_place_save_witness :
    (saveTrustedStates "x".data ["aa"]).getLast? = some (encodeTrustFile ["aa"])
      ∧ loadTrusted (some (encodeTrustFile ["aa"])) = ["aa"] :=
  ⟨(C5_amended_in_place_save "x".data ["aa"] (by decide)).1,
    (C5_amended_in_place_save "x".data ["aa"] (by decide)).2.1⟩

/-! ### Overlap of matches -/

/-- Two spans of the input overlap: each starts before the other ends. -/
def spanOverlap (a b : SpanMatch) : Prop :=
  a.start < b.start + b.len ∧ b.start < a.start + a.len

instance : DecidableRel spanOverlap := fun a b => by
  unfold spanOverlap; exact inferInstance

/-- Two raw `finditer` spans overlap. -/
def pairOverlap (a b : Nat × Nat) : Prop :=
  a.1 < b.1 + b.2 ∧ b.1 < a.1 + a.2

instance : DecidableRel pairOverlap := fun a b => by
  unfold pairOverlap; exact inferInstance

theorem finditerAux_start_le (m : List Char → Nat → Option Nat)
    (s : List Char) :
    ∀ fuel p, ∀ q ∈ finditerAux m s p fuel, p ≤ q.1 := by
  intro fuel
  induction fuel with
  | zero => intro p q hq; simp [finditerAux] at hq
  | succ f ih =>
    intro p q hq
    unfold finditerAux at hq
    split_ifs at hq with hp
    · rcases hm : m s p with _ | len
      · rw [hm] at hq
        exact le_trans (Nat.le_succ p) (ih (p + 1) q hq)
      · rw [hm] at hq
        rcases List.mem_cons.1 hq with e | hq2
        · subst e; exact le_refl _
        · exact le_trans (Nat.le_add_right p (max len 1)) (ih _ q hq2)
    · simp at hq

theorem finditerAux_pairwise_disjoint (m : List Char → Nat → Option Nat)
    (s : List Char) :
    ∀ fuel p, List.Pairwise (fun a b : Nat × Nat => a.1 + max a.2 1 ≤ b.1)
      (finditerAux m s p fuel) := by
  intro fuel
  induction fuel with
  | zero => intro p; simp [finditerAux]
  | succ f ih =>
    intro p
    unfold finditerAux
    split_ifs with hp
    · rcases hm : m s p with _ | len
      · exact ih (p + 1)
      · refine List.pairwise_cons.2 ⟨?_, ih (p + max len 1)⟩
        intro b hb
        exact finditerAux_start_le m s f (p + max len 1) b hb
    · simp

/-- Non-overlap of the spans one single `finditer` call returns. -/
theorem finditer_pairwise_not_overlap (m : List Char → Nat → Option Nat)
    (s : List Char) :
    List.Pairwise (fun a b => ¬ pairOverlap a b) (finditer m s) := by
  refine (finditerAux_pairwise_disjoint m s (s.length + 1) 0).imp ?_
  intro a b hab hov
  rcases hov with ⟨_, hba⟩
  have h1 : a.1 + a.2 ≤ a.1 + max a.2 1 := by
    have := le_max_left a.2 1
    omega
  omega

/-- C6 counterexample: on the input `"a.b.c@d.ef"` the returned matches
include the email match spanning positions 0–10 and the jwt match
spanning positions 0–5, which overlap; the claimed pairwise non-overlap
across all pattern groups is false. -/
theorem C6_counterexample :
    ¬ List.Pairwise (fun a b => ¬ spanOverlap a b)
      (findSensitiveSpans "a.b.c@d.ef".data) := by
  decide

/-- C6 amended: `find_sensitive_matches` concatenates the per-rule
`finditer` results (the two crypto_address rules, then email, then jwt),
so matches produced by one single rule never overlap one another, but
matches from different rules or groups may overlap; empty text yields the
empty list, and the operation is a total function (never fails). -/
theorem C6_amended_per_rule_non_overlap (s : List Char) :
    List.Pairwise (fun a b => ¬ pairOverlap a b) (finditer ethMatchAt s)
      ∧ List.Pairwise (fun a b => ¬ pairOverlap a b) (finditer btcMatchAt s)
      ∧ List.Pairwise (fun a b => ¬ pairOverlap a b) (finditer emailMatchAt s)
      ∧ List.Pairwise (fun a b => ¬ pairOverlap a b) (finditer jwtMatchAt s)
      ∧ findSensitiveSpans [] = []
      ∧ findSensitiveMatches [] = [] :=
  ⟨finditer_pairwise_not_overlap ethMatchAt s,
    finditer_pairwise_not_overlap btcMatchAt s,
    finditer_pairwise_not_overlap emailMatchAt s,
    finditer_pairwise_not_overlap jwtMatchAt s,
    rfl, rfl⟩

/-- C3: `compute_deltas` builds exactly one candidate per pid in the
union of the two snapshots — with `delta_write = max(0, write(S2) -
write(S1))` and `delta_cpu = max(0, cpu(S2) - cpu(S1))`, a side a pid is
missing from contributing 0 (`getD 0` of a failed lookup) — sorts them
descending by the key `(delta_write, delta_cpu)`, and `identify_suspects`
returns exactly the first `top_k`; in particular any two candidates with
equal `delta_write` appear in order of descending `delta_cpu`. -/
theorem C3_identify_suspects_ranking (before after : Snapshot) (topK : Nat) :
    List.Perm (computeDeltas before after)
        ((unionPids before after).map (mkCandidate before after))
      ∧ List.Sorted suspectGe (computeDeltas before after)
      ∧ identifySuspects before after topK
          = (computeDeltas before after).take topK
      ∧ (∀ pid ∈ unionPids before after,
          (mkCandidate before after pid).deltaWrite
              = max 0 (((after.lookup pid).map ProcMetric.writeBytes).getD 0
                  - ((before.lookup pid).map ProcMetric.writeBytes).getD 0)
            ∧ (mkCandidate before after pid).deltaCpu
                = max 0 (((after.lookup pid).map ProcMetric.cpuTime).getD 0
                    - ((before.lookup pid).map ProcMetric.cpuTime).getD 0)
            ∧ mkCandidate before after pid ∈ computeDeltas before after)
      ∧ (∀ a b : Fin (computeDeltas before after).length, a < b →
          ((computeDeltas before after).get a).deltaWrite
              = ((computeDeltas before after).get b).deltaWrite →
            ((computeDeltas before after).get b).deltaCpu
              ≤ ((computeDeltas before after).get a).deltaCpu) := by
  have hperm : List.Perm (computeDeltas before after)
      ((unionPids before after).map (mkCandidate before after)) :=
    List.perm_insertionSort suspectGe _
  have hsorted : List.Sorted suspectGe (computeDeltas before after) :=
    List.sorted_insertionSort suspectGe _
  refine ⟨hperm, hsorted, rfl, ?_, ?_⟩
  · intro pid hpid
    refine ⟨rfl, rfl, ?_⟩
    exact hperm.mem_iff.2 (List.mem_map.2 ⟨pid, hpid, rfl⟩)
  · intro a b hab heq
    have hge := hsorted.rel_get_of_lt hab
    rcases hge with hlt | ⟨_, hcpu⟩
    · rw [heq] at hlt
      exact absurd hlt (lt_irrefl _)
    · exact hcpu

/-- The specification's worked example for C3: two processes with equal
write delta 1000 and cpu deltas 0.1 and 5.0. -/
def exBefore3 : Snapshot :=
  [(1, ⟨"p1", "e1", 0, 0⟩), (2, ⟨"p2", "e2", 0, 0⟩)]

/-- The matching after-snapshot of the worked example. -/
def exAfter3 : Snapshot :=
  [(1, ⟨"p1", "e1", 1000, 1 / 10⟩), (2, ⟨"p2", "e2", 1000, 5⟩)]

/-- Witness for C3 on the worked example: pid 2 (the higher cpu delta)
is ranked first, pid 1 second, and pid 1's candidate is a member of the
ranking. -/
theorem C3_identify_suspects_ranking_witness :
    mkCandidate exBefore3 exAfter3 1 ∈ computeDeltas exBefore3 exAfter3
      ∧ identifySuspects exBefore3 exAfter3 3
          = [mkCandidate exBefore3 exAfter3 2, mkCandidate exBefore3 exAfter3 1] := by
  refine ⟨((C3_identify_suspects_ranking exBefore3 exAfter3 3).2.2.2.1
    1 (by decide)).2.2, ?_⟩
  rw [(C3_identify_suspects_ranking exBefore3 exAfter3 3).2.2.1]
  simp [computeDeltas, unionPids, mkCandidate, exBefore3, exAfter3,
    List.insertionSort, List.orderedInsert, suspectGe, firstNonEmpty,
    List.lookup]
  norm_num

/-! ### Tick-level helper lemmas -/

/-- The `current` value a tick works with: the clipboard read, empty on a
paste failure. -/
def tickCurrent (env : MonEnv) (last : List Char) : List Char :=
  if env.paste1Ok then env.clip else []

/-- The filtered suspects of a suspicious tick. -/
def tickFiltered (env : MonEnv) : List Suspect :=
  filterSuspects env.selfPid
    (identifySuspects env.before env.after ATTRIBUTION_TOP_K)

/-- The suspect-info strings of a suspicious tick. -/
def tickInfo (env : MonEnv) : List String :=
  if tickFiltered env = [] then ["unknown_or_whitelisted"]
  else (tickFiltered env).map formatSuspect

/-- Unfolding of the tick of monitor.py on a handled suspicious change
(changed clipboard, not accepted by the trust chain, flagged by the
detector): events, final clipboard, final baseline, cache and filtered
suspects, in closed form. -/
theorem tickMain_suspicious_eq (env : MonEnv) (last : List Char)
    (hcur : tickCurrent env last ≠ last)
    (hsusp : (isSuspiciousChange last (tickCurrent env last)).1 = true)
    (hrej : ¬ ((isSuspiciousChange last (tickCurrent env last)).2 ≠ []
        ∧ (shouldAcceptNew env.trust (tickCurrent env last)).1 = true)) :
    tickMain env last
      = { last := if env.paste2Ok then (if env.copyOk then last else env.clip) else []
          clip := if env.copyOk then last else env.clip
          events := [Event.suspiciousChange last (tickCurrent env last)
              (((isSuspiciousChange last (tickCurrent env last)).2.map Prod.fst)
                ++ tickInfo env),
            if env.copyOk then
              Event.restored last (tickCurrent env last)
                (((isSuspiciousChange last (tickCurrent env last)).2.map Prod.fst)
                  ++ ["restored"])
            else
              Event.restoreFailed last (tickCurrent env last)
                ((isSuspiciousChange last (tickCurrent env last)).2.map Prod.fst)]
          cache := if (isSuspiciousChange last (tickCurrent env last)).2 ≠ []
              then (shouldAcceptNew env.trust (tickCurrent env last)).2
              else env.trust.cache
          filtered := tickFiltered env } := by
  unfold tickMain handleSuspicious
  unfold tickCurrent at hcur hsusp hrej
  simp only [if_neg hcur, hsusp, if_neg hrej, if_true, AUTO_TERMINATE]
  simp [tickCurrent, tickFiltered, tickInfo, AUTO_TERMINATE]

/-- The filtered suspect list of any tick is either empty or exactly the
self/whitelist filter of the truncated attribution result. -/
theorem tickMain_filtered_cases (env : MonEnv) (last : List Char) :
    (tickMain env last).filtered = []
      ∨ (tickMain env last).filtered = tickFiltered env := by
  by_cases h1 : tickCurrent env last = last
  · left
    unfold tickMain
    unfold tickCurrent at h1
    simp [h1]
  · by_cases h2 : (isSuspiciousChange last (tickCurrent env last)).2 ≠ []
        ∧ (shouldAcceptNew env.trust (tickCurrent env last)).1 = true
    · left
      unfold tickMain
      unfold tickCurrent at h1 h2
      simp only [if_neg h1, if_pos h2]
    · by_cases h3 : (isSuspiciousChange last (tickCurrent env last)).1 = true
      · right
        rw [tickMain_suspicious_eq env last h1 h3 h2]
      · left
        unfold tickMain
        unfold tickCurrent at h1 h2 h3
        simp only [if_neg h1, if_neg h2]
        simp [h3]

/-- Elements surviving `filterSuspects` are neither the monitor's own pid
nor whitelisted. -/
theorem mem_filterSuspects (selfPid : Nat) (l : List Suspect) (s : Suspect)
    (hs : s ∈ filterSuspects selfPid l) :
    s.pid ≠ selfPid ∧ isWhitelisted s.name s.exe = false := by
  unfold filterSuspects at hs
  have h := (List.mem_filter.1 hs).2
  simp only [Bool.and_eq_true, Bool.not_eq_true', beq_eq_false_iff_ne] at h
  exact ⟨h.1, h.2⟩

/-- If every truncated candidate is the self pid or whitelisted, the
filter leaves nothing. -/
theorem filterSuspects_eq_nil (selfPid : Nat) (l : List Suspect)
    (hall : ∀ s ∈ l, s.pid = selfPid ∨ isWhitelisted s.name s.exe = true) :
    filterSuspects selfPid l = [] := by
  unfold filterSuspects
  rw [List.filter_eq_nil]
  intro s hs
  rcases hall s hs with h | h <;> simp [h]

/-- C9: in every tick, the suspects passed on to formatting, logging and
notification (the `filtered` list) contain neither the monitor's own pid
nor any whitelisted process, whatever their raw resource deltas were. -/
theorem C9_suspects_exclude_self_and_whitelist (env : MonEnv)
    (last : List Char) :
    ∀ s ∈ (tickMain env last).filtered,
      s.pid ≠ env.selfPid ∧ isWhitelisted s.name s.exe = false := by
  intro s hs
  rcases tickMain_filtered_cases env last with e | e
  · rw [e] at hs
    simp at hs
  · rw [e] at hs
    exact mem_filterSuspects env.selfPid _ s hs

/-- Tick oracles for the C9 witness: a whitelisted process out-ranks a
non-whitelisted one, the clipboard changes to a sensitive value nothing
trusts. -/
def envC9 : MonEnv :=
  ⟨"a.b.c".data, true, true, true,
    [(1, ⟨"svchost.exe", "C:\\w\\svchost.exe", 0, 0⟩),
     (7, ⟨"evil", "C:\\e\\evil.exe", 0, 0⟩)],
    [(1, ⟨"svchost.exe", "C:\\w\\svchost.exe", 1000, 0⟩),
     (7, ⟨"evil", "C:\\e\\evil.exe", 10, 0⟩)],
    99, true, "",
    ⟨fun v => String.mk v, [], [], true, Except.ok false, true, Except.ok false⟩⟩

/-- Witness for C9: in the concrete tick the non-whitelisted process is
reported (so the filtered list is not vacuously empty) and, by C9, it is
neither the self pid nor whitelisted — while the top-ranked whitelisted
process was dropped. -/
theorem C9_suspects_exclude_self_and_whitelist_witness :
    (⟨7, "evil", "C:\\e\\evil.exe", 10, 0⟩ : Suspect)
        ∈ (tickMain envC9 "hi".data).filtered
      ∧ (7 : Nat) ≠ envC9.selfPid
      ∧ isWhitelisted "evil" "C:\\e\\evil.exe" = false := by
  have hmem : (⟨7, "evil", "C:\\e\\evil.exe", 10, 0⟩ : Suspect)
      ∈ (tickMain envC9 "hi".data).filtered := by
    rw [tickMain_suspicious_eq envC9 "hi".data (by decide) (by decide)
      (by decide)]
    show _ ∈ tickFiltered envC9
    simp [tickFiltered, filterSuspects, identifySuspects, computeDeltas,
      unionPids, mkCandidate, envC9, List.insertionSort, List.orderedInsert,
      suspectGe, firstNonEmpty, ATTRIBUTION_TOP_K, List.lookup]
    decide
  have h := C9_suspects_exclude_self_and_whitelist envC9 "hi".data _ hmem
  refine ⟨hmem, h.1, ?_⟩
  simpa using h.2

/-- C10: truncation to `top_k` happens inside `identify_suspects`, before
the monitor's self/whitelist filter — so whenever every one of the
`top_k` globally ranked candidates is the self pid or whitelisted, the
tick reports the sentinel `"unknown_or_whitelisted"` in the
`suspicious_change` metadata and passes an empty suspects list on, no
matter what the remaining processes did. -/
theorem C10_truncation_before_filter (env : MonEnv) (last : List Char)
    (hcur : tickCurrent env last ≠ last)
    (hsusp : (isSuspiciousChange last (tickCurrent env last)).1 = true)
    (hrej : ¬ ((isSuspiciousChange last (tickCurrent env last)).2 ≠ []
        ∧ (shouldAcceptNew env.trust (tickCurrent env last)).1 = true))
    (hall : ∀ s ∈ identifySuspects env.before env.after ATTRIBUTION_TOP_K,
        s.pid = env.selfPid ∨ isWhitelisted s.name s.exe = true) :
    (tickMain env last).filtered = []
      ∧ (tickMain env last).events
          = [Event.suspiciousChange last (tickCurrent env last)
              (((isSuspiciousChange last (tickCurrent env last)).2.map Prod.fst)
                ++ ["unknown_or_whitelisted"]),
             if env.copyOk then
               Event.restored last (tickCurrent env last)
                 (((isSuspiciousChange last (tickCurrent env last)).2.map Prod.fst)
                   ++ ["restored"])
             else
               Event.restoreFailed last (tickCurrent env last)
                 ((isSuspiciousChange last (tickCurrent env last)).2.map Prod.fst)] := by
  have hnil : tickFiltered env = [] :=
    filterSuspects_eq_nil env.selfPid _ hall
  rw [tickMain_suspicious_eq env last hcur hsusp hrej]
  simp [tickInfo, hnil]

/-- Tick oracles for the C10 witness: the three top-ranked processes are
all whitelisted, while a fourth, non-whitelisted process has a strictly
positive write delta but is truncated away by `top_k = 3`. -/
def envC10 : MonEnv :=
  ⟨"a.b.c".data, true, true, true,
    [(1, ⟨"svchost.exe", "", 0, 0⟩), (2, ⟨"System", "", 0, 0⟩),
     (3, ⟨"Idle", "", 0, 0⟩), (7, ⟨"evil", "", 0, 0⟩)],
    [(1, ⟨"svchost.exe", "", 1000, 0⟩), (2, ⟨"System", "", 900, 0⟩),
     (3, ⟨"Idle", "", 800, 0⟩), (7, ⟨"evil", "", 10, 0⟩)],
    99, true, "",
    ⟨fun v => String.mk v, [], [], true, Except.ok false, true, Except.ok false⟩⟩

/-- Witness for C10: the concrete tick reports the sentinel even though
the non-whitelisted process pid 7 had a positive write delta during the
window. -/
theorem C10_truncation_before_filter_witness :
    (tickMain envC10 "hi".data).filtered = []
      ∧ (mkCandidate envC10.before envC10.after 7).deltaWrite = 10 := by
  have hid : identifySuspects envC10.before envC10.after ATTRIBUTION_TOP_K
      = [mkCandidate envC10.before envC10.after 1,
         mkCandidate envC10.before envC10.after 2,
         mkCandidate envC10.before envC10.after 3] := by
    simp [identifySuspects, computeDeltas, unionPids, mkCandidate, envC10,
      List.insertionSort, List.orderedInsert, suspectGe, firstNonEmpty,
      ATTRIBUTION_TOP_K, List.lookup]
  have hall : ∀ s ∈ identifySuspects envC10.before envC10.after
      ATTRIBUTION_TOP_K,
      s.pid = envC10.selfPid ∨ isWhitelisted s.name s.exe = true := by
    rw [hid]
    intro s hs
    rcases List.mem_cons.1 hs with e | hs2
    · subst e; right; decide
    · rcases List.mem_cons.1 hs2 with e | hs3
      · subst e; right; decide
      · rcases List.mem_cons.1 hs3 with e | hs4
        · subst e; right; decide
        · simp at hs4
  refine ⟨(C10_truncation_before_filter envC10 "hi".data (by decide)
    (by decide) (by decide) hall).1, by decide⟩

/-- C1 counterexample: a tick on which the trust chain rejects the
sensitive new value `"a.b.c"`, the restore fails and the final re-read
succeeds.  The events show the hijack was handled (`suspicious_change`
then `restore_failed`), yet the baseline after the tick *is* the
malicious value, not the previous safe value — refuting both
"the baseline is never the malicious value" and "on restore failure the
baseline stays B". -/
theorem C1_counterexample :
    (tickMain
          ⟨"a.b.c".data, true, false, true, [], [], 99, true, "",
            ⟨fun v => String.mk v, [], [], true, Except.ok false, true,
              Except.ok false⟩⟩
          "hi".data).events
        = [Event.suspiciousChange "hi".data "a.b.c".data
            ["jwt", "unknown_or_whitelisted"],
           Event.restoreFailed "hi".data "a.b.c".data ["jwt"]]
      ∧ (tickMain
            ⟨"a.b.c".data, true, false, true, [], [], 99, true, "",
              ⟨fun v => String.mk v, [], [], true, Except.ok false, true,
                Except.ok false⟩⟩
            "hi".data).last
          = "a.b.c".data
      ∧ "a.b.c".data ≠ "hi".data := by
  decide

/-- C1 amended: after a tick that handles a suspicious change, the
baseline is whatever the final clipboard re-read returns: the previous
safe value when the restore succeeded (and the re-read succeeds), the
clipboard content — i.e. the malicious value when the initial paste
succeeded — when the restore failed, and the empty string when the
re-read itself fails.  Monitoring always continues; only the
restore-success case leaves the baseline at B. -/
theorem C1_amended_baseline_is_reread (env : MonEnv) (last : List Char)
    (hcur : tickCurrent env last ≠ last)
    (hsusp : (isSuspiciousChange last (tickCurrent env last)).1 = true)
    (hrej : ¬ ((isSuspiciousChange last (tickCurrent env last)).2 ≠ []
        ∧ (shouldAcceptNew env.trust (tickCurrent env last)).1 = true)) :
    ((env.copyOk = true ∧ env.paste2Ok = true) →
        (tickMain env last).last = last)
      ∧ ((env.copyOk = false ∧ env.paste2Ok = true) →
          (tickMain env last).last = env.clip)
      ∧ (env.paste2Ok = false → (tickMain env last).last = []) := by
  rw [tickMain_suspicious_eq env last hcur hsusp hrej]
  refine ⟨fun h => ?_, fun h => ?_, fun h => ?_⟩
  · simp [h.1, h.2]
  · simp [h.1, h.2]
  · simp [h]

/-- Witness for C1's amended theorem: the restore-success tick leaves the
baseline at the previous safe value. -/
theorem C1_amended_baseline_is_reread_witness :
    (tickMain
          ⟨"a.b.c".data, true, true, true, [], [], 99, true, "",
            ⟨fun v => String.mk v, [], [], true, Except.ok false, true,
              Except.ok false⟩⟩
          "hi".data).last
      = "hi".data :=
  (C1_amended_baseline_is_reread
      ⟨"a.b.c".data, true, true, true, [], [], 99, true, "",
        ⟨fun v => String.mk v, [], [], true, Except.ok false, true,
          Except.ok false⟩⟩
      "hi".data (by decide) (by decide) (by decide)).1 ⟨rfl, rfl⟩

/-- Tick oracles for the C4 counterexample: the clipboard changes to a
sensitive value whose digest is already in the trust store. -/
def envC4 : MonEnv :=
  ⟨"a.b.c".data, true, true, true, [], [], 99, true, "",
    ⟨fun v => String.mk v, ["a.b.c"], [], true, Except.ok false, true,
      Except.ok false⟩⟩

/-- C4 counterexample: for a single clipboard change to a trusted
sensitive value, the two monitor variants diverge in every observable:
monitor.py accepts (`accepted_trusted`, baseline adopts the value,
clipboard untouched), while monitor.back.py — which has no trust-decision
path — handles it as a hijack (`suspicious_change` + `restored`, the
clipboard overwritten with the old baseline).  Both ticks complete
(`isSome`), so the divergence is in behavior, not availability. -/
theorem C4_counterexample :
    (tickBack envC4 []).map TickResult.events
        ≠ some (tickMain envC4 []).events
      ∧ (tickBack envC4 []).map TickResult.last
          ≠ some (tickMain envC4 []).last
      ∧ (tickBack envC4 []).map TickResult.clip
          ≠ some (tickMain envC4 []).clip
      ∧ (tickBack envC4 []).isSome = true := by
  decide

/-- C4 amended: the two variants have identical single-tick observable
behavior (same events, same final baseline, clipboard and trust cache)
exactly when the trust chain does not accept the new value — no sensitive
matches, or the chain rejects — and the final clipboard re-read succeeds;
they differ when the chain accepts (monitor.py adopts, monitor.back.py
restores) and when the final re-read raises (monitor.back.py has no
try/except there and crashes). -/
theorem C4_amended_variants_agree_when_not_accepted (env : MonEnv)
    (last : List Char)
    (hp2 : env.paste2Ok = true)
    (hrej : ¬ ((isSuspiciousChange last (tickCurrent env last)).2 ≠ []
        ∧ (shouldAcceptNew env.trust (tickCurrent env last)).1 = true)) :
    tickBack env last = some (tickMain env last) := by
  have hcache : (if (isSuspiciousChange last (tickCurrent env last)).2 ≠ []
      then (shouldAcceptNew env.trust (tickCurrent env last)).2
      else env.trust.cache) = env.trust.cache := by
    by_cases hnm : (isSuspiciousChange last (tickCurrent env last)).2 = []
    · simp [hnm]
    · have hb : (shouldAcceptNew env.trust (tickCurrent env last)).1 = false := by
        rcases Bool.eq_false_or_eq_true
          (shouldAcceptNew env.trust (tickCurrent env last)).1 with hb | hb
        · exact absurd ⟨hnm, hb⟩ hrej
        · exact hb
      simp [hnm, shouldAcceptNew_reject_cache _ _ hb]
  by_cases h1 : tickCurrent env last = last
  · unfold tickBack tickMain
    unfold tickCurrent at h1
    simp [h1]
  · by_cases h3 : (isSuspiciousChange last (tickCurrent env last)).1 = true
    · rw [tickMain_suspicious_eq env last h1 h3 hrej]
      unfold tickBack
      unfold tickCurrent at h1 h3 hcache ⊢
      simp only [if_neg h1, h3, if_true, hp2]
      unfold handleSuspicious
      simp only [hcache, hp2, if_true]
      by_cases hnm : (isSuspiciousChange last (if env.paste1Ok then env.clip else [])).2 = []
      · simp [tickFiltered, tickInfo, hnm, AUTO_TERMINATE]
      · simp [tickFiltered, tickInfo, hnm, AUTO_TERMINATE]
    · unfold tickBack tickMain
      unfold tickCurrent at h1 h3 hcache hrej
      simp only [if_neg h1, if_neg hrej, hp2, if_true]
      simp [h3, hcache]

/-- Witness for C4's amended theorem: a benign, non-sensitive clipboard
change is handled identically by the two variants. -/
theorem C4_amended_variants_agree_when_not_accepted_witness :
    tickBack
        ⟨"zz".data, true, true, true, [], [], 99, true, "",
          ⟨fun v => String.mk v, [], [], true, Except.ok false, true,
            Except.ok false⟩⟩ []
      = some (tickMain
          ⟨"zz".data, true, true, true, [], [], 99, true, "",
            ⟨fun v => String.mk v, [], [], true, Except.ok false, true,
              Except.ok false⟩⟩ []) :=
  C4_amended_variants_agree_when_not_accepted _ [] rfl (by decide)

end ClipboardGuard
